import Mathlib

/-!
# Verification of the vitess comparison kernel and VDiff state model

Shallow embedding of `go/vt/vtgate/evalengine/comparisons.go` (the
comparison core of the expression evaluation engine) together with a
spec-level model of the VDiff run lifecycle (resume/retry accounting,
sidecar-table invariants, stop semantics), whose implementation is
exercised only through its end-to-end tests.

Go's `(value, error)` returns are embedded as `Except`; a Go `panic`
is embedded as the distinguished error `EvalError.panicked`.
-/

namespace Vitess

/-! ## The `sqltypes` type classification.

Modelled from the spec: the `sqltypes` package is not part of the given
sources; its type tags and classification predicates (`IsIntegral`,
`IsFloat`, `IsText`) are reconstructed from the spec's value-tag list
(§3 "Comparison kernel values", §4.5 "Typed values") covering NULL,
signed/unsigned integers, floating point, fixed-point decimal, text,
and binary. -/

inductive Typ where
  | null
  | int8 | int16 | int24 | int32 | int64
  | uint8 | uint16 | uint24 | uint32 | uint64
  | float32 | float64
  | decimal
  | char | varchar | text
  | binary | varbinary | blob
  | date | datetime | timestamp
  deriving DecidableEq, Repr

namespace sqltypes

/-- Modelled from the spec: a signed integer type tag. -/
def IsSigned : Typ → Bool
  | .int8 | .int16 | .int24 | .int32 | .int64 => true
  | _ => false

/-- Modelled from the spec: an unsigned integer type tag. -/
def IsUnsigned : Typ → Bool
  | .uint8 | .uint16 | .uint24 | .uint32 | .uint64 => true
  | _ => false

/-- Modelled from the spec: an integral (signed or unsigned) type tag. -/
def IsIntegral (t : Typ) : Bool :=
  IsSigned t || IsUnsigned t

/-- Modelled from the spec: a floating-point type tag. -/
def IsFloat : Typ → Bool
  | .float32 | .float64 => true
  | _ => false

/-- Modelled from the spec: a textual (collated character) type tag. -/
def IsText : Typ → Bool
  | .char | .varchar | .text => true
  | _ => false

end sqltypes

namespace evalengine

/-- The result of evaluating an expression: a type tag plus payload.
The struct itself is declared outside the given sources; modelled from
the spec as a tagged pair `(type_tag, payload)`, with the Go payload
fields `ival` (signed), `uval` (unsigned), `fval` (floating), `bytes`
(textual). Floating-point payloads are modelled as exact rationals.
Modelled from the spec: for a value whose type is neither integral nor
floating (decimal, text, binary, date), `fval` carries the numeric
interpretation of its payload that the floating-point fallback coercion
of MySQL's type-conversion rules would produce. -/
structure EvalResult where
  typ : Typ := .null
  ival : Int := 0
  uval : Nat := 0
  fval : Rat := 0
  bytes : String := ""
  deriving DecidableEq, Repr

/-- Go: `resultTrue = EvalResult{typ: sqltypes.Int32, ival: 1}`. -/
def resultTrue : EvalResult := { typ := .int32, ival := 1 }

/-- Go: `resultFalse = EvalResult{typ: sqltypes.Int32, ival: 0}`. -/
def resultFalse : EvalResult := { typ := .int32, ival := 0 }

/-- Go: `resultNull = EvalResult{typ: sqltypes.Null}`. -/
def resultNull : EvalResult := { typ := .null }

/-- A Go `(..., error)` failure: either an error built with
`vterrors.Errorf(code, msg)` or a runtime `panic(msg)`. -/
inductive EvalError where
  | internal (msg : String)
  | panicked (msg : String)
  deriving DecidableEq, Repr

/-- Go: `func hasNullEvalResult(l, r EvalResult) bool`. -/
def hasNullEvalResult (l r : EvalResult) : Bool :=
  l.typ == Typ.null || r.typ == Typ.null

/-- Go: `func evalResultsAreString(l, r EvalResult) bool`. -/
def evalResultsAreString (l r : EvalResult) : Bool :=
  sqltypes.IsText l.typ && sqltypes.IsText r.typ

/-- Go: `func evalResultsAreInteger(l, r EvalResult) bool`. -/
def evalResultsAreInteger (l r : EvalResult) : Bool :=
  sqltypes.IsIntegral l.typ && sqltypes.IsIntegral r.typ

/-- Go: `func needsDecimalHandling(l, r EvalResult) bool`. -/
def needsDecimalHandling (l r : EvalResult) : Bool :=
  (l.typ == Typ.decimal && (r.typ == Typ.decimal || sqltypes.IsIntegral r.typ)) ||
  (r.typ == Typ.decimal && (l.typ == Typ.decimal || sqltypes.IsIntegral l.typ))

/-- Go: `func needsFloatHandling(l, r EvalResult) bool`. -/
def needsFloatHandling (l r : EvalResult) : Bool :=
  (l.typ == Typ.decimal && sqltypes.IsFloat r.typ) ||
  (r.typ == Typ.decimal && sqltypes.IsFloat l.typ)

/-- Modelled from the spec: the exact numeric reading of a value used by
the numeric comparison — signed payload for signed integral tags,
unsigned payload for unsigned integral tags, and the (rational-modelled)
floating payload otherwise. -/
def numericValue (e : EvalResult) : Rat :=
  if sqltypes.IsSigned e.typ then (e.ival : Rat)
  else if sqltypes.IsUnsigned e.typ then (e.uval : Rat)
  else e.fval

/-- Modelled from the spec: `compareNumeric` (declared in a source file
not given here) compares two numeric values after MySQL widening —
"if one is integral and the other floating, or either is floating,
compare as Float64 after widening" — returning a sign in {-1, 0, +1}.
With floating payloads modelled as exact rationals the widening is the
identity, so the comparison is the order on the numeric readings. -/
def compareNumeric (l r : EvalResult) : Except EvalError Int :=
  if numericValue l < numericValue r then .ok (-1)
  else if numericValue r < numericValue l then .ok 1
  else .ok 0

/-- Modelled from the spec: `makeNumeric` (declared in a source file not
given here) leaves numeric values unchanged and coerces any other value
to `Float64` by its floating-point interpretation (MySQL §12
type-conversion fallback), which the embedding carries in `fval`. -/
def makeNumeric (v : EvalResult) : EvalResult :=
  if sqltypes.IsIntegral v.typ || sqltypes.IsFloat v.typ then v
  else { typ := .float64, fval := v.fval }

/-- Go: `func executeComparison(lVal, rVal EvalResult) (int, error)`. -/
def executeComparison (lVal rVal : EvalResult) : Except EvalError Int :=
  if evalResultsAreString lVal rVal then
    .error (.panicked "not implemented yet")
  else if evalResultsAreInteger lVal rVal || needsFloatHandling lVal rVal then
    compareNumeric lVal rVal
  else if needsDecimalHandling lVal rVal then
    .error (.panicked "not implemented yet")
  else
    compareNumeric (makeNumeric lVal) (makeNumeric rVal)

/-- The concrete comparison operators implementing `ComparisonOp`. -/
inductive CompOp where
  | equal | notEqual | nullSafeEqual
  | lessThan | lessEqual | greaterThan | greaterEqual
  | inOp | notInOp | likeOp | notLikeOp | regexpOp | notRegexpOp
  deriving DecidableEq, Repr

/-- The `IsTrue` method of each operator. The equality and ordering
operators run `executeComparison` and test its sign; the stub operators
(`<=>`, IN, NOT IN, LIKE, NOT LIKE, REGEXP, NOT REGEXP) return
`false, nil`. -/
def CompOp.isTrue (op : CompOp) (left right : EvalResult) : Except EvalError Bool :=
  match op with
  | .equal =>
      match executeComparison left right with
      | .error e => .error e
      | .ok numeric => .ok (numeric == 0)
  | .notEqual =>
      match executeComparison left right with
      | .error e => .error e
      | .ok numeric => .ok (numeric != 0)
  | .lessThan =>
      match executeComparison left right with
      | .error e => .error e
      | .ok numeric => .ok (numeric < 0)
  | .lessEqual =>
      match executeComparison left right with
      | .error e => .error e
      | .ok numeric => .ok (numeric ≤ 0)
  | .greaterThan =>
      match executeComparison left right with
      | .error e => .error e
      | .ok numeric => .ok (numeric > 0)
  | .greaterEqual =>
      match executeComparison left right with
      | .error e => .error e
      | .ok numeric => .ok (numeric ≥ 0)
  | .nullSafeEqual => .ok false
  | .inOp | .notInOp | .likeOp | .notLikeOp | .regexpOp | .notRegexpOp => .ok false

/-- The `Evaluate` method of each operator. The equality and ordering
operators map `IsTrue` to `resultTrue`/`resultFalse`; `<=>`, IN,
NOT IN, LIKE, NOT LIKE, REGEXP and NOT REGEXP are
`panic("implement me")` in the source. -/
def CompOp.evaluate (op : CompOp) (left right : EvalResult) : Except EvalError EvalResult :=
  match op with
  | .equal | .notEqual | .lessThan | .lessEqual | .greaterThan | .greaterEqual =>
      match op.isTrue left right with
      | .error e => .error e
      | .ok false => .ok resultFalse
      | .ok true => .ok resultTrue
  | .nullSafeEqual => .error (.panicked "implement me")
  | .inOp | .notInOp | .likeOp | .notLikeOp | .regexpOp | .notRegexpOp =>
      .error (.panicked "implement me")

/-- Go: `ComparisonExpr{Op, Left, Right}`. The operand sub-expressions
implement the `Expr` interface, i.e. each is a function from the
expression environment to an evaluation outcome; `Op` is a Go interface
value and may be `nil`. `ε` is the type of expression environments. -/
structure ComparisonExpr (ε : Type) where
  op : Option CompOp
  left : ε → Except EvalError EvalResult
  right : ε → Except EvalError EvalResult

/-- Go: `func (c *ComparisonExpr) evaluateComparisonExprs(env)`. -/
def ComparisonExpr.evaluateComparisonExprs {ε : Type}
    (c : ComparisonExpr ε) (env : ε) :
    Except EvalError (EvalResult × EvalResult) :=
  match c.left env with
  | .error err => .error err
  | .ok lVal =>
      match c.right env with
      | .error err => .error err
      | .ok rVal => .ok (lVal, rVal)

/-- Go: `func (c *ComparisonExpr) Evaluate(env)`. -/
def ComparisonExpr.evaluate {ε : Type} (c : ComparisonExpr ε) (env : ε) :
    Except EvalError EvalResult :=
  match c.op with
  | none => .error (.internal "a comparison expression needs a comparison operator")
  | some op =>
      match c.evaluateComparisonExprs env with
      | .error err => .error err
      | .ok (lVal, rVal) =>
          if hasNullEvalResult lVal rVal then
            if op ≠ CompOp.nullSafeEqual then
              .ok resultNull
            else
              op.evaluate lVal rVal
          else
            op.evaluate lVal rVal

end evalengine

namespace vdiff

/-! ## The VDiff run lifecycle.

The VDiff engine itself is exercised in the given sources only through
its end-to-end tests (`vdiff2_test`); every definition in this namespace
is modelled from the spec (§3 data model, §4.1 controller operations,
§4.2 shard differ, §4.4 retry/resume engine). -/

/-- Modelled from the spec: the per-shard run state,
`state ∈ {pending, started, stopped, error, completed}`. -/
inductive RunState where
  | pending | started | stopped | errored | completed
  deriving DecidableEq, Repr

/-- Modelled from the spec: the per-shard view of a run — its state, the
cumulative `rows_compared` counter, the last checkpointed primary key,
and `last_error`. Primary keys are modelled as naturals (the e2e tables
use integer PKs). -/
structure ShardRun where
  state : RunState := .pending
  rowsCompared : Nat := 0
  checkpoint : Option Nat := none
  lastError : Option String := none
  deriving DecidableEq, Repr

/-- Modelled from the spec (§4.2 step 2a–2c): the rows a scan starting
from checkpoint `cp` still has to compare — all source rows when there
is no checkpoint, otherwise the rows with primary key beyond it. -/
def rowsAfter (cp : Option Nat) (rows : List Nat) : List Nat :=
  match cp with
  | none => rows
  | some p => rows.filter (fun pk => p < pk)

/-- Modelled from the spec (§4.2): a shard differ scan over the source
rows (listed by primary key in ascending order): it compares every row
past the checkpoint, adds their number to the cumulative
`rows_compared`, persists the last compared primary key as the new
checkpoint, and transitions the shard to `completed`. -/
def scan (rows : List Nat) (r : ShardRun) : ShardRun :=
  let todo := rowsAfter r.checkpoint rows
  { state := .completed
    rowsCompared := r.rowsCompared + todo.length
    checkpoint :=
      match todo.getLast? with
      | some pk => some pk
      | none => r.checkpoint
    lastError := none }

/-- Modelled from the spec: the initial run of a fresh `vdiff` row over
the source rows. -/
def initialRun (rows : List Nat) : ShardRun :=
  scan rows {}

/-- Modelled from the spec (§4.4 Resume): `resume(uuid)` clears
`last_error`, transitions to `started`, and resumes scanning from the
last checkpointed primary key. -/
def resume (rows : List Nat) (r : ShardRun) : ShardRun :=
  scan rows { r with state := .started, lastError := none }

/-- Modelled from the spec (§4.4): an error from the stream marks the
shard's state `error` and persists `last_error`. -/
def markError (msg : String) (r : ShardRun) : ShardRun :=
  { r with state := .errored, lastError := some msg }

/-- Modelled from the spec (§4.4 Auto-retry): a shard in `error` whose
`last_error` is classified ephemeral is picked up by the sweeper and
transitioned back to `started`, resuming from the last checkpoint;
a permanent error is left untouched. -/
def autoRetry (ephemeral : String → Bool) (rows : List Nat) (r : ShardRun) : ShardRun :=
  match r.state, r.lastError with
  | .errored, some msg =>
      if ephemeral msg then scan rows { r with state := .started, lastError := none }
      else r
  | _, _ => r

/-- Modelled from the spec (§4.1 stop, §5, §9 "Cancellation
contamination"): `stop(uuid)` moves the shard to `stopped` at the next
safe checkpoint and clears any prior cancellation error stored in
`last_error`. -/
def stop (r : ShardRun) : ShardRun :=
  { r with state := .stopped, lastError := none }

/-- Modelled from the spec (§4.1 show, §6 output shape): the per-shard
`show` record; the `Errors` field is present exactly when `last_error`
is set. -/
structure ShowRecord where
  state : RunState
  rowsCompared : Nat
  errorsField : Option String
  deriving DecidableEq, Repr

/-- Modelled from the spec: `show` reports the shard's state, its
cumulative `rows_compared`, and an `Errors` field when `last_error`
is non-empty. -/
def showRecord (r : ShardRun) : ShowRecord :=
  { state := r.state, rowsCompared := r.rowsCompared, errorsField := r.lastError }

/-! ## The sidecar tables and their invariants. -/

/-- Modelled from the spec (§3): a `vdiff` row. -/
structure VDiffRow where
  id : Nat
  uuid : String
  keyspace : String
  workflow : String
  state : RunState
  deriving DecidableEq, Repr

/-- Modelled from the spec (§3): a `vdiff_table` row, keyed by its
parent `vdiff_id`. -/
structure VDiffTableRow where
  vdiffId : Nat
  tableName : String
  deriving DecidableEq, Repr

/-- Modelled from the spec (§3): a `vdiff_log` row, keyed by its parent
`vdiff_id`. -/
structure VDiffLogRow where
  vdiffId : Nat
  message : String
  deriving DecidableEq, Repr

/-- Modelled from the spec (§3): the three sidecar tables on one target
shard. -/
structure SidecarDB where
  vdiff : List VDiffRow
  vdiffTable : List VDiffTableRow
  vdiffLog : List VDiffLogRow
  deriving DecidableEq, Repr

/-- A `vdiff_id` has a parent `vdiff` row. -/
def hasParent (db : SidecarDB) (vdiffId : Nat) : Bool :=
  db.vdiff.any (fun v => v.id == vdiffId)

/-- The orphan invariant (§3 "Ownership and lifecycle"): no
`vdiff_table` or `vdiff_log` row exists without a parent `vdiff` row. -/
def noOrphans (db : SidecarDB) : Bool :=
  db.vdiffTable.all (fun t => hasParent db t.vdiffId) &&
  db.vdiffLog.all (fun l => hasParent db l.vdiffId)

/-- Membership of a `vdiff` row in a workflow. -/
def inWorkflow (ks wf : String) (v : VDiffRow) : Bool :=
  v.keyspace == ks && v.workflow == wf

/-- The ids of the `vdiff` rows of a workflow. -/
def workflowIds (db : SidecarDB) (ks wf : String) : List Nat :=
  (db.vdiff.filter (inWorkflow ks wf)).map (fun v => v.id)

/-- Modelled from the spec (§4.1 create): `create` persists a `vdiff`
row, one `vdiff_table` row per table, and a `vdiff_log` entry. -/
def createRun (db : SidecarDB) (id : Nat) (uuid ks wf : String)
    (tables : List String) : SidecarDB :=
  { vdiff := { id := id, uuid := uuid, keyspace := ks, workflow := wf,
               state := .pending } :: db.vdiff
    vdiffTable := tables.map (fun tbl => { vdiffId := id, tableName := tbl }) ++ db.vdiffTable
    vdiffLog := { vdiffId := id, message := "State changed to: pending" } :: db.vdiffLog }

/-- Membership of an id in a list of purged `vdiff` ids. -/
def idsContain (ids : List Nat) (i : Nat) : Bool :=
  ids.any (fun j => j == i)

/-- Modelled from the spec (§4.1 delete, §4.3): a deletion fan-out on
one shard: it removes the `vdiff` rows selected by `p` together with
their `vdiff_table` and `vdiff_log` children. -/
def purge (db : SidecarDB) (p : VDiffRow → Bool) : SidecarDB :=
  let ids := (db.vdiff.filter p).map (fun v => v.id)
  { vdiff := db.vdiff.filter (fun v => !(p v))
    vdiffTable := db.vdiffTable.filter (fun t => !(idsContain ids t.vdiffId))
    vdiffLog := db.vdiffLog.filter (fun l => !(idsContain ids l.vdiffId)) }

/-- Modelled from the spec (§4.1 delete): `delete(uuid)` deletes the
matching `vdiff` rows and their `vdiff_table` and `vdiff_log` children
on the shard. -/
def deleteRun (db : SidecarDB) (uuid : String) : SidecarDB :=
  purge db (fun v => v.uuid == uuid)

/-- Modelled from the spec (§4.1 "Workflow completion sweep"): when the
surrounding workflow is `Complete`d, every `vdiff*` row matching the
workflow is purged on the shard. -/
def completeWorkflowSweep (db : SidecarDB) (ks wf : String) : SidecarDB :=
  purge db (inWorkflow ks wf)

/-- The e2e orphan check (`testNoOrphanedData`): the number of
`vdiff ⋈ vdiff_table ⋈ vdiff_log` join results restricted to the
workflow. -/
def orphanJoinCount (db : SidecarDB) (ks wf : String) : Nat :=
  (db.vdiff.filter (fun v =>
    inWorkflow ks wf v &&
    db.vdiffTable.any (fun t => t.vdiffId == v.id) &&
    db.vdiffLog.any (fun l => l.vdiffId == v.id))).length

end vdiff

namespace evalengine

/-! ## Helper lemmas on the comparison kernel. -/

theorem evalResultsAreString_comm (l r : EvalResult) :
    evalResultsAreString l r = evalResultsAreString r l := by
  simp [evalResultsAreString, Bool.and_comm]

theorem evalResultsAreInteger_comm (l r : EvalResult) :
    evalResultsAreInteger l r = evalResultsAreInteger r l := by
  simp [evalResultsAreInteger, Bool.and_comm]

theorem needsFloatHandling_comm (l r : EvalResult) :
    needsFloatHandling l r = needsFloatHandling r l := by
  simp [needsFloatHandling, Bool.or_comm]

theorem needsDecimalHandling_comm (l r : EvalResult) :
    needsDecimalHandling l r = needsDecimalHandling r l := by
  simp [needsDecimalHandling, Bool.or_comm]

theorem numericValue_makeNumeric (v : EvalResult) :
    numericValue (makeNumeric v) = numericValue v := by
  rcases v with ⟨t, i, u, f, b⟩
  cases t <;> simp [makeNumeric, numericValue, sqltypes.IsIntegral, sqltypes.IsSigned,
    sqltypes.IsUnsigned, sqltypes.IsFloat]

theorem compareNumeric_makeNumeric (l r : EvalResult) :
    compareNumeric (makeNumeric l) (makeNumeric r) = compareNumeric l r := by
  simp [compareNumeric, numericValue_makeNumeric]

/-- On inputs outside the (unimplemented) string and decimal branches,
`executeComparison` is the numeric comparison. -/
theorem executeComparison_numeric_path (l r : EvalResult)
    (hstr : evalResultsAreString l r = false)
    (hdec : needsDecimalHandling l r = false) :
    executeComparison l r = compareNumeric l r := by
  unfold executeComparison
  rw [hstr, hdec]
  by_cases h : (evalResultsAreInteger l r || needsFloatHandling l r) = true
  · simp [h]
  · simp [h, compareNumeric_makeNumeric]

theorem compareNumeric_self (x : EvalResult) : compareNumeric x x = .ok 0 := by
  simp [compareNumeric]

theorem compareNumeric_antisymm (a b : EvalResult) (s : Int)
    (h : compareNumeric a b = .ok s) : compareNumeric b a = .ok (-s) := by
  unfold compareNumeric at h ⊢
  rcases lt_trichotomy (numericValue a) (numericValue b) with hlt | heq | hgt
  · rw [if_pos hlt] at h
    rw [if_neg (not_lt_of_lt hlt), if_pos hlt]
    cases h
    rfl
  · rw [if_neg (by rw [heq]; exact lt_irrefl _), if_neg (by rw [heq]; exact lt_irrefl _)] at h
    rw [if_neg (by rw [heq]; exact lt_irrefl _), if_neg (by rw [heq]; exact lt_irrefl _)]
    cases h
    rfl
  · rw [if_neg (not_lt_of_lt hgt), if_pos hgt] at h
    rw [if_pos hgt]
    cases h
    rfl

theorem compareNumeric_nonpos (a b : EvalResult) (s : Int)
    (h : compareNumeric a b = .ok s) (hs : s ≤ 0) :
    numericValue a ≤ numericValue b := by
  unfold compareNumeric at h
  by_cases hlt : numericValue a < numericValue b
  · exact le_of_lt hlt
  · rw [if_neg hlt] at h
    by_cases hgt : numericValue b < numericValue a
    · rw [if_pos hgt] at h
      cases h
      exact absurd hs (by decide)
    · exact le_of_not_lt hgt

theorem compareNumeric_of_le (a b : EvalResult) (s : Int)
    (h : compareNumeric a b = .ok s) (hle : numericValue a ≤ numericValue b) :
    s ≤ 0 := by
  unfold compareNumeric at h
  by_cases hlt : numericValue a < numericValue b
  · rw [if_pos hlt] at h
    cases h
    decide
  · rw [if_neg hlt, if_neg (not_lt_of_le hle)] at h
    cases h
    decide

theorem isIntegral_not_text (t : Typ) (h : sqltypes.IsIntegral t = true) :
    sqltypes.IsText t = false := by
  cases t <;> simp_all [sqltypes.IsIntegral, sqltypes.IsSigned, sqltypes.IsUnsigned,
    sqltypes.IsText]

theorem isIntegral_not_decimal (t : Typ) (h : sqltypes.IsIntegral t = true) :
    (t == Typ.decimal) = false := by
  cases t <;> simp_all [sqltypes.IsIntegral, sqltypes.IsSigned, sqltypes.IsUnsigned]

theorem isFloat_not_text (t : Typ) (h : sqltypes.IsFloat t = true) :
    sqltypes.IsText t = false := by
  cases t <;> simp_all [sqltypes.IsFloat, sqltypes.IsText]

theorem isFloat_not_decimal (t : Typ) (h : sqltypes.IsFloat t = true) :
    (t == Typ.decimal) = false := by
  cases t <;> simp_all [sqltypes.IsFloat]

/-! ## Claim theorems: the comparison kernel. -/

/-- C1: the claim states that `NullSafeEqualOp`'s evaluation never
yields NULL and returns Int32 1 on two NULL operands. In the source,
`NullSafeEqualOp.Evaluate` is `panic("implement me")`: evaluating
`NULL <=> NULL` — directly or through `ComparisonExpr.Evaluate`, which
routes NULL operands to the null-safe operator — panics instead of
returning Int32 1. -/
theorem nullSafeEqual_evaluate_panics :
    CompOp.nullSafeEqual.evaluate resultNull resultNull =
      .error (.panicked "implement me") ∧
    CompOp.nullSafeEqual.evaluate resultNull resultNull ≠ .ok resultTrue ∧
    (ComparisonExpr.mk (some CompOp.nullSafeEqual)
        (fun _ => .ok resultNull) (fun _ => .ok resultNull) :
        ComparisonExpr Unit).evaluate () =
      .error (.panicked "implement me") := by
  refine ⟨rfl, ?_, rfl⟩
  intro h
  exact Except.noConfusion h

/-- C2: for every comparison operator other than `<=>`, if both operand
sub-expressions evaluate without error and at least one result has type
NULL, `ComparisonExpr.Evaluate` returns the NULL result with no error,
for every possible behavior of the operator's own comparison. -/
theorem comparisonExpr_null_propagation {ε : Type} (c : ComparisonExpr ε)
    (env : ε) (op : CompOp) (lVal rVal : EvalResult)
    (hop : c.op = some op) (hns : op ≠ CompOp.nullSafeEqual)
    (hl : c.left env = .ok lVal) (hr : c.right env = .ok rVal)
    (hnull : hasNullEvalResult lVal rVal = true) :
    c.evaluate env = .ok resultNull := by
  unfold ComparisonExpr.evaluate ComparisonExpr.evaluateComparisonExprs
  rw [hop, hl, hr]
  simp [hnull, hns]

/-- Witness for C2: `NULL = 1` evaluates to the NULL result. -/
theorem comparisonExpr_null_propagation_witness :
    (ComparisonExpr.mk (some CompOp.equal)
        (fun _ => .ok resultNull) (fun _ => .ok resultTrue) :
        ComparisonExpr Unit).evaluate () = .ok resultNull :=
  comparisonExpr_null_propagation _ () CompOp.equal resultNull resultTrue
    rfl (by decide) rfl rfl (by decide)

/-- C9: evaluating a `ComparisonExpr` whose `Op` is nil returns the
INTERNAL error "a comparison expression needs a comparison operator"
for every environment and every pair of operand sub-expressions (in
particular, neither operand's outcome can influence the result, so
neither is evaluated). -/
theorem comparisonExpr_nil_op_internal_error {ε : Type} (env : ε)
    (left right : ε → Except EvalError EvalResult) :
    (ComparisonExpr.mk none left right).evaluate env =
      .error (.internal "a comparison expression needs a comparison operator") :=
  rfl

/-- Witness for C9: with a nil operator the INTERNAL error surfaces
even when both operands would evaluate fine. -/
theorem comparisonExpr_nil_op_internal_error_witness :
    (ComparisonExpr.mk none
        (fun _ => .ok resultTrue) (fun _ => .ok resultFalse) :
        ComparisonExpr Unit).evaluate () =
      .error (.internal "a comparison expression needs a comparison operator") :=
  comparisonExpr_nil_op_internal_error ()
    (fun _ => .ok resultTrue) (fun _ => .ok resultFalse)

/-- C10: operand evaluation is left-to-right and short-circuits on
error: a left error is propagated for every possible right operand (so
the right operand is never evaluated), a right error is propagated when
the left succeeds, and `Evaluate` propagates either error before any
comparison is performed. -/
theorem comparisonExpr_operand_short_circuit {ε : Type}
    (c : ComparisonExpr ε) (env : ε) (err : EvalError) :
    (c.left env = .error err →
      c.evaluateComparisonExprs env = .error err) ∧
    (∀ lVal, c.left env = .ok lVal → c.right env = .error err →
      c.evaluateComparisonExprs env = .error err) ∧
    (∀ op, c.op = some op → c.evaluateComparisonExprs env = .error err →
      c.evaluate env = .error err) := by
  refine ⟨?_, ?_, ?_⟩
  · intro hl
    unfold ComparisonExpr.evaluateComparisonExprs
    rw [hl]
  · intro lVal hl hr
    unfold ComparisonExpr.evaluateComparisonExprs
    rw [hl, hr]
  · intro op hop hboth
    unfold ComparisonExpr.evaluate
    rw [hop, hboth]

/-- Witness for C10: a failing left operand short-circuits `1 = <err>`
and the error surfaces from `Evaluate`. -/
theorem comparisonExpr_operand_short_circuit_witness :
    (ComparisonExpr.mk (some CompOp.equal)
        (fun _ => .error (.internal "left boom")) (fun _ => .ok resultTrue) :
        ComparisonExpr Unit).evaluate () = .error (.internal "left boom") :=
  (comparisonExpr_operand_short_circuit
      (ComparisonExpr.mk (some CompOp.equal)
        (fun _ => .error (.internal "left boom")) (fun _ => .ok resultTrue))
      () (.internal "left boom")).2.2 CompOp.equal rfl
    ((comparisonExpr_operand_short_circuit
      (ComparisonExpr.mk (some CompOp.equal)
        (fun _ => .error (.internal "left boom")) (fun _ => .ok resultTrue))
      () (.internal "left boom")).1 rfl)

/-- Counterexample to C3 as stated: `cmp` is not reflexive on every
supported non-NULL type tag — on a text value the string branch of
`executeComparison` panics ("not implemented yet") instead of
returning 0. -/
theorem executeComparison_not_reflexive_on_text :
    executeComparison { typ := .text, bytes := "a" } { typ := .text, bytes := "a" } ≠
      .ok 0 ∧
    executeComparison { typ := .text, bytes := "a" } { typ := .text, bytes := "a" } =
      .error (.panicked "not implemented yet") := by
  refine ⟨?_, rfl⟩
  intro h
  exact Except.noConfusion h

/-- C3 (amended): on the implemented numeric path — operand pairs
outside the unimplemented string-string and decimal branches — `cmp` is
reflexive (`cmp(x,x) = 0`) and antisymmetric
(`cmp(a,b) = s → cmp(b,a) = -s`); and within a single numeric coercion
class (all integral, or all floating) it is transitive. -/
theorem executeComparison_partial_order_on_numeric_path :
    (∀ x : EvalResult, x.typ ≠ Typ.null →
      evalResultsAreString x x = false → needsDecimalHandling x x = false →
      executeComparison x x = .ok 0) ∧
    (∀ a b : EvalResult, a.typ ≠ Typ.null → b.typ ≠ Typ.null →
      evalResultsAreString a b = false → needsDecimalHandling a b = false →
      ∀ s : Int, executeComparison a b = .ok s →
        executeComparison b a = .ok (-s)) ∧
    (∀ a b c : EvalResult,
      ((sqltypes.IsIntegral a.typ = true ∧ sqltypes.IsIntegral b.typ = true ∧
          sqltypes.IsIntegral c.typ = true) ∨
        (sqltypes.IsFloat a.typ = true ∧ sqltypes.IsFloat b.typ = true ∧
          sqltypes.IsFloat c.typ = true)) →
      ∀ sab sbc sac : Int,
        executeComparison a b = .ok sab → executeComparison b c = .ok sbc →
        executeComparison a c = .ok sac →
        sab ≤ 0 → sbc ≤ 0 → sac ≤ 0) := by
  have hpath : ∀ a b : EvalResult,
      ((sqltypes.IsIntegral a.typ = true ∧ sqltypes.IsIntegral b.typ = true) ∨
        (sqltypes.IsFloat a.typ = true ∧ sqltypes.IsFloat b.typ = true)) →
      evalResultsAreString a b = false ∧ needsDecimalHandling a b = false := by
    intro a b h
    rcases h with ⟨ha, hb⟩ | ⟨ha, hb⟩
    · exact ⟨by simp [evalResultsAreString, isIntegral_not_text _ ha],
        by simp [needsDecimalHandling, isIntegral_not_decimal _ ha,
          isIntegral_not_decimal _ hb]⟩
    · exact ⟨by simp [evalResultsAreString, isFloat_not_text _ ha],
        by simp [needsDecimalHandling, isFloat_not_decimal _ ha,
          isFloat_not_decimal _ hb]⟩
  refine ⟨?_, ?_, ?_⟩
  · intro x _ hstr hdec
    rw [executeComparison_numeric_path x x hstr hdec]
    exact compareNumeric_self x
  · intro a b _ _ hstr hdec s hab
    rw [executeComparison_numeric_path a b hstr hdec] at hab
    rw [executeComparison_numeric_path b a
      (by rw [evalResultsAreString_comm]; exact hstr)
      (by rw [needsDecimalHandling_comm]; exact hdec)]
    exact compareNumeric_antisymm a b s hab
  · intro a b c hclass sab sbc sac hab hbc hac h1 h2
    have hcab : ((sqltypes.IsIntegral a.typ = true ∧ sqltypes.IsIntegral b.typ = true) ∨
        (sqltypes.IsFloat a.typ = true ∧ sqltypes.IsFloat b.typ = true)) := by
      rcases hclass with ⟨x, y, _⟩ | ⟨x, y, _⟩
      · exact Or.inl ⟨x, y⟩
      · exact Or.inr ⟨x, y⟩
    have hcbc : ((sqltypes.IsIntegral b.typ = true ∧ sqltypes.IsIntegral c.typ = true) ∨
        (sqltypes.IsFloat b.typ = true ∧ sqltypes.IsFloat c.typ = true)) := by
      rcases hclass with ⟨_, y, z⟩ | ⟨_, y, z⟩
      · exact Or.inl ⟨y, z⟩
      · exact Or.inr ⟨y, z⟩
    have hcac : ((sqltypes.IsIntegral a.typ = true ∧ sqltypes.IsIntegral c.typ = true) ∨
        (sqltypes.IsFloat a.typ = true ∧ sqltypes.IsFloat c.typ = true)) := by
      rcases hclass with ⟨x, _, z⟩ | ⟨x, _, z⟩
      · exact Or.inl ⟨x, z⟩
      · exact Or.inr ⟨x, z⟩
    obtain ⟨s1, d1⟩ := hpath a b hcab
    obtain ⟨s2, d2⟩ := hpath b c hcbc
    obtain ⟨s3, d3⟩ := hpath a c hcac
    rw [executeComparison_numeric_path a b s1 d1] at hab
    rw [executeComparison_numeric_path b c s2 d2] at hbc
    rw [executeComparison_numeric_path a c s3 d3] at hac
    exact compareNumeric_of_le a c sac hac
      (le_trans (compareNumeric_nonpos a b sab hab h1)
        (compareNumeric_nonpos b c sbc hbc h2))

/-- Witness for the amended C3: reflexivity at Int64 42, antisymmetry
at Int64 3 vs Uint64 7, and transitivity at Int64 -1 ≤ Int64 2 ≤
Uint64 5. -/
theorem executeComparison_partial_order_witness :
    executeComparison { typ := .int64, ival := 42 } { typ := .int64, ival := 42 } =
      .ok 0 ∧
    executeComparison { typ := .uint64, uval := 7 } { typ := .int64, ival := 3 } =
      .ok (-(-1 : Int)) ∧
    ((-1 : Int) ≤ 0) := by
  refine ⟨?_, ?_, ?_⟩
  · exact executeComparison_partial_order_on_numeric_path.1
      { typ := .int64, ival := 42 } (by decide) (by decide) (by decide)
  · exact executeComparison_partial_order_on_numeric_path.2.1
      { typ := .int64, ival := 3 } { typ := .uint64, uval := 7 }
      (by decide) (by decide) (by decide) (by decide) (-1) rfl
  · exact executeComparison_partial_order_on_numeric_path.2.2
      { typ := .int64, ival := -1 } { typ := .int64, ival := 2 }
      { typ := .uint64, uval := 5 }
      (Or.inl ⟨by decide, by decide, by decide⟩)
      (-1) (-1) (-1) rfl rfl rfl (by decide) (by decide)

/-- C4: the claim states that a Decimal operand against a Decimal or
integral operand is compared as decimals at the wider scale. In the
source, `executeComparison`'s decimal branch (`needsDecimalHandling`)
is `panic("not implemented yet")`: both Decimal/Int64 and
Decimal/Decimal comparisons panic instead of returning a sign. -/
theorem executeComparison_decimal_panics :
    executeComparison { typ := .decimal, fval := 1 } { typ := .int64, ival := 1 } =
      .error (.panicked "not implemented yet") ∧
    executeComparison { typ := .decimal, fval := (3 : Rat) / 2 }
        { typ := .decimal, fval := (3 : Rat) / 2 } =
      .error (.panicked "not implemented yet") := by
  exact ⟨rfl, rfl⟩

/-- C5: the claim states that two text operands of compatible collation
are compared via the collation's key ordering. In the source, the
string branch of `executeComparison` (`evalResultsAreString`) is
`panic("not implemented yet")`: comparing two text values panics
instead of returning a sign. -/
theorem executeComparison_text_panics :
    executeComparison { typ := .varchar, bytes := "abc" }
        { typ := .varchar, bytes := "abd" } =
      .error (.panicked "not implemented yet") := rfl

end evalengine

namespace vdiff

/-! ## Helper lemmas on the VDiff model. -/

theorem sorted_getLast?_max (R : List Nat) (hR : List.Sorted (· < ·) R)
    (m : Nat) (hm : R.getLast? = some m) : ∀ q ∈ R, q ≤ m := by
  induction R with
  | nil => intro q hq; cases hq
  | cons a as ih =>
    cases as with
    | nil =>
      intro q hq
      rcases List.mem_singleton.mp hq with rfl
      simp only [List.getLast?_singleton, Option.some.injEq] at hm
      omega
    | cons b bs =>
      rw [List.getLast?_cons_cons] at hm
      have htail := List.sorted_cons.mp hR
      intro q hq
      rcases List.mem_cons.mp hq with rfl | hq'
      · have hb : b ≤ m := ih htail.2 hm b (List.mem_cons_self b bs)
        have : q < b := htail.1 b (List.mem_cons_self b bs)
        omega
      · exact ih htail.2 hm q hq'

theorem rowsAfter_checkpoint_append (R I : List Nat)
    (hR : List.Sorted (· < ·) R)
    (hRI : ∀ q ∈ R, ∀ pk ∈ I, q < pk) :
    rowsAfter R.getLast? (R ++ I) = I := by
  cases hre : R.getLast? with
  | none =>
    have : R = [] := List.getLast?_eq_none_iff.mp hre
    subst this
    simp [rowsAfter]
  | some m =>
    have hne : R ≠ [] := by
      intro h
      subst h
      simp at hre
    have hmem : m ∈ R := by
      have := List.getLast?_eq_getLast R hne
      rw [this, Option.some.injEq] at hre
      rw [← hre]
      exact List.getLast_mem hne
    show List.filter (fun pk => decide (m < pk)) (R ++ I) = I
    rw [List.filter_append]
    have h1 : R.filter (fun pk => decide (m < pk)) = [] := by
      rw [List.filter_eq_nil_iff]
      intro q hq
      simpa using Nat.not_lt.mpr (sorted_getLast?_max R hR m hre q hq)
    have h2 : I.filter (fun pk => decide (m < pk)) = I := by
      rw [List.filter_eq_self]
      intro pk hpk
      simpa using hRI m hmem pk hpk
    rw [h1, h2, List.nil_append]

theorem initialRun_checkpoint (R : List Nat) :
    (initialRun R).checkpoint = R.getLast? := by
  unfold initialRun scan rowsAfter
  cases h : R.getLast? <;> simp [h]

theorem initialRun_rowsCompared (R : List Nat) :
    (initialRun R).rowsCompared = R.length := by
  show 0 + (rowsAfter none R).length = R.length
  simp [rowsAfter]

theorem filter_filter_disjoint {α : Type} (l : List α) (p q : α → Bool)
    (h : ∀ a, q a = true → p a = true) :
    (l.filter fun a => !(p a)).filter q = [] := by
  induction l with
  | nil => rfl
  | cons a t ih =>
    by_cases hp : p a = true
    · simp [List.filter_cons, hp, ih]
    · have hq : q a = false := by
        cases hqa : q a
        · rfl
        · exact absurd (h a hqa) hp
      simp [List.filter_cons, hp, hq, ih]

theorem noOrphans_purge (db : SidecarDB) (p : VDiffRow → Bool)
    (h : noOrphans db = true) : noOrphans (purge db p) = true := by
  rw [noOrphans, Bool.and_eq_true, List.all_eq_true, List.all_eq_true] at h
  obtain ⟨ht, hl⟩ := h
  have key : ∀ i : Nat,
      !(idsContain ((db.vdiff.filter p).map (fun v => v.id)) i) = true →
      hasParent db i = true → hasParent (purge db p) i = true := by
    intro i hkeep hp
    rw [hasParent, List.any_eq_true] at hp
    obtain ⟨v, hv, hid⟩ := hp
    rw [hasParent, List.any_eq_true]
    refine ⟨v, ?_, hid⟩
    show v ∈ (purge db p).vdiff
    unfold purge
    simp only [List.mem_filter]
    refine ⟨hv, ?_⟩
    cases hiw : p v
    · rfl
    · exfalso
      have hvin : v.id ∈ (db.vdiff.filter p).map (fun v => v.id) :=
        List.mem_map_of_mem _ (List.mem_filter.mpr ⟨hv, hiw⟩)
      have hcontains : idsContain ((db.vdiff.filter p).map (fun v => v.id)) i = true := by
        rw [idsContain, List.any_eq_true]
        exact ⟨v.id, hvin, hid⟩
      rw [hcontains] at hkeep
      exact Bool.noConfusion hkeep
  rw [noOrphans, Bool.and_eq_true, List.all_eq_true, List.all_eq_true]
  constructor
  · intro t hmem
    have hmem' := hmem
    unfold purge at hmem'
    simp only [List.mem_filter] at hmem'
    exact key t.vdiffId (by simpa using hmem'.2) (ht t hmem'.1)
  · intro l lmem
    have lmem' := lmem
    unfold purge at lmem'
    simp only [List.mem_filter] at lmem'
    exact key l.vdiffId (by simpa using lmem'.2) (hl l lmem'.1)

/-! ## Claim theorems: the VDiff lifecycle. -/

/-- C6 (spec-modelled): `RowsCompared` is cumulative across runs of the
same UUID: after a resume — or an automatic retry of an ephemeral
error — over the source rows `R ++ I`, where `I` are the rows inserted
(with larger primary keys) since the initial run over `R`, the counter
equals its value before the stop or error plus the number of inserted
rows. -/
theorem rowsCompared_cumulative (R I : List Nat)
    (hR : List.Sorted (· < ·) R)
    (hRI : ∀ q ∈ R, ∀ pk ∈ I, q < pk) :
    ((resume (R ++ I) (initialRun R)).rowsCompared =
      (initialRun R).rowsCompared + I.length) ∧
    (∀ ephemeral : String → Bool, ∀ msg : String, ephemeral msg = true →
      (autoRetry ephemeral (R ++ I) (markError msg (initialRun R))).rowsCompared =
        (initialRun R).rowsCompared + I.length) := by
  have hscan : ∀ r : ShardRun, r.checkpoint = R.getLast? →
      (scan (R ++ I) r).rowsCompared = r.rowsCompared + I.length := by
    intro r hcp
    show r.rowsCompared + (rowsAfter r.checkpoint (R ++ I)).length = _
    rw [hcp, rowsAfter_checkpoint_append R I hR hRI]
  constructor
  · exact hscan { initialRun R with state := .started, lastError := none }
      (initialRun_checkpoint R)
  · intro ephemeral msg heph
    show (autoRetry ephemeral (R ++ I) (markError msg (initialRun R))).rowsCompared = _
    unfold autoRetry markError
    simp only [heph, if_true]
    exact hscan _ (initialRun_checkpoint R)

/-- Witness for C6: an initial run over primary keys 1, 2, 3 followed
by a resume after inserting keys 10, 11 reports 3 + 2 rows compared,
and likewise after a simulated ephemeral deadlock error. -/
theorem rowsCompared_cumulative_witness :
    ((resume ([1, 2, 3] ++ [10, 11]) (initialRun [1, 2, 3])).rowsCompared =
      (initialRun [1, 2, 3]).rowsCompared + 2) ∧
    ((autoRetry (fun msg => msg == "errno 1213") ([1, 2, 3] ++ [10, 11])
        (markError "errno 1213" (initialRun [1, 2, 3]))).rowsCompared =
      (initialRun [1, 2, 3]).rowsCompared + 2) := by
  have h := rowsCompared_cumulative [1, 2, 3] [10, 11] (by decide) (by decide)
  exact ⟨h.1, h.2 (fun msg => msg == "errno 1213") "errno 1213" (by decide)⟩

/-- C7 (spec-modelled): after the parent workflow is `Complete`d, zero
rows remain for the workflow in each of the three sidecar tables (in
particular the e2e join over `vdiff ⋈ vdiff_table ⋈ vdiff_log` is
empty); and the orphan invariant — no `vdiff_table` or `vdiff_log` row
without a parent `vdiff` row — is preserved by every modelled mutation
(create, delete, completion sweep). -/
theorem complete_sweep_purges_workflow (db : SidecarDB) (ks wf : String) :
    ((completeWorkflowSweep db ks wf).vdiff.filter (inWorkflow ks wf) = [] ∧
     (completeWorkflowSweep db ks wf).vdiffTable.filter
        (fun t => idsContain (workflowIds db ks wf) t.vdiffId) = [] ∧
     (completeWorkflowSweep db ks wf).vdiffLog.filter
        (fun l => idsContain (workflowIds db ks wf) l.vdiffId) = [] ∧
     orphanJoinCount (completeWorkflowSweep db ks wf) ks wf = 0) ∧
    (noOrphans db = true →
      noOrphans (completeWorkflowSweep db ks wf) = true ∧
      (∀ uuid, noOrphans (deleteRun db uuid) = true) ∧
      (∀ rid uuid tables, noOrphans (createRun db rid uuid ks wf tables) = true)) := by
  constructor
  · refine ⟨?_, ?_, ?_, ?_⟩
    · exact filter_filter_disjoint db.vdiff (inWorkflow ks wf) (inWorkflow ks wf)
        (fun _ h => h)
    · exact filter_filter_disjoint db.vdiffTable _ _ (fun _ h => h)
    · exact filter_filter_disjoint db.vdiffLog _ _ (fun _ h => h)
    · show ((completeWorkflowSweep db ks wf).vdiff.filter _).length = 0
      rw [show (completeWorkflowSweep db ks wf).vdiff =
            db.vdiff.filter (fun v => !(inWorkflow ks wf v)) from rfl,
        filter_filter_disjoint db.vdiff (inWorkflow ks wf) _ ?_]
      · rfl
      · intro v hv
        rw [Bool.and_eq_true, Bool.and_eq_true] at hv
        exact hv.1.1
  · intro h
    refine ⟨noOrphans_purge db _ h, fun uuid => noOrphans_purge db _ h, ?_⟩
    intro rid uuid tables
    rw [noOrphans, Bool.and_eq_true, List.all_eq_true, List.all_eq_true] at h
    obtain ⟨ht, hl⟩ := h
    rw [noOrphans, Bool.and_eq_true, List.all_eq_true, List.all_eq_true]
    have holdParent : ∀ i : Nat, hasParent db i = true →
        hasParent (createRun db rid uuid ks wf tables) i = true := by
      intro i hp
      rw [hasParent, List.any_eq_true] at hp
      obtain ⟨v, hv, hid⟩ := hp
      rw [hasParent, List.any_eq_true]
      exact ⟨v, List.mem_cons_of_mem _ hv, hid⟩
    have hnewParent : hasParent (createRun db rid uuid ks wf tables) rid = true := by
      rw [hasParent, List.any_eq_true]
      exact ⟨_, List.mem_cons_self _ _, by simp⟩
    constructor
    · intro t hmem
      rcases List.mem_append.mp hmem with hnew | hold
      · obtain ⟨tbl, _, rfl⟩ := List.mem_map.mp hnew
        exact hnewParent
      · exact holdParent t.vdiffId (ht t hold)
    · intro l lmem
      rcases List.mem_cons.mp lmem with rfl | hold
      · exact hnewParent
      · exact holdParent l.vdiffId (hl l hold)

/-- Witness for C7: a concrete two-workflow store in which completing
workflow `wf1` purges its rows and preserves the orphan invariant. -/
theorem complete_sweep_purges_workflow_witness :
    (completeWorkflowSweep
        { vdiff := [{ id := 1, uuid := "u1", keyspace := "customer",
                      workflow := "wf1", state := .completed },
                    { id := 2, uuid := "u2", keyspace := "customer",
                      workflow := "wf2", state := .completed }]
          vdiffTable := [{ vdiffId := 1, tableName := "customer" },
                         { vdiffId := 2, tableName := "customer" }]
          vdiffLog := [{ vdiffId := 1, message := "started" },
                       { vdiffId := 2, message := "started" }] }
        "customer" "wf1").vdiff.filter (inWorkflow "customer" "wf1") = [] ∧
    noOrphans (completeWorkflowSweep
        { vdiff := [{ id := 1, uuid := "u1", keyspace := "customer",
                      workflow := "wf1", state := .completed },
                    { id := 2, uuid := "u2", keyspace := "customer",
                      workflow := "wf2", state := .completed }]
          vdiffTable := [{ vdiffId := 1, tableName := "customer" },
                         { vdiffId := 2, tableName := "customer" }]
          vdiffLog := [{ vdiffId := 1, message := "started" },
                       { vdiffId := 2, message := "started" }] }
        "customer" "wf1") = true := by
  refine ⟨(complete_sweep_purges_workflow _ "customer" "wf1").1.1,
    ((complete_sweep_purges_workflow _ "customer" "wf1").2 (by decide)).1⟩

/-- C8 (spec-modelled): after an explicit `stop`, `show` reports state
`stopped` with no `Errors` field: any previously recorded cancellation
error in `last_error` is cleared, for every prior shard state. -/
theorem stop_clears_errors (r : ShardRun) (msg : String) :
    (showRecord (stop r)).state = RunState.stopped ∧
    (showRecord (stop r)).errorsField = none ∧
    (showRecord (stop (markError msg r))).state = RunState.stopped ∧
    (showRecord (stop (markError msg r))).errorsField = none :=
  ⟨rfl, rfl, rfl, rfl⟩

/-- Witness for C8: a started run that recorded a cancellation error is
shown as `stopped` with no `Errors` field after `stop`. -/
theorem stop_clears_errors_witness :
    (showRecord (stop (markError "vttablet: rpc error: context canceled"
        { state := .started, rowsCompared := 101 }))).state = RunState.stopped ∧
    (showRecord (stop (markError "vttablet: rpc error: context canceled"
        { state := .started, rowsCompared := 101 }))).errorsField = none :=
  ⟨(stop_clears_errors { state := .started, rowsCompared := 101 }
      "vttablet: rpc error: context canceled").2.2.1,
   (stop_clears_errors { state := .started, rowsCompared := 101 }
      "vttablet: rpc error: context canceled").2.2.2⟩

end vdiff

end Vitess
